import Mathlib

/-!
Verification of the data-distribution team collection
(`fdbserver/DataDistribution.actor.cpp`) against its natural-language
specification.  The C++ operations relevant to the checked properties are
shallowly embedded as executable Lean functions; machine integers are
modelled as `Int`/`Nat`, doubles (available-space ratios) as `ℚ`, fallible
lookups as `Option`.
-/

namespace DD

/-- Opaque identifiers (server UIDs, machine IDs, process IDs) modelled as
naturals. -/
abbrev UID := Nat

/-- `ServerStatus` (DataDistribution.actor.cpp:397): the per-server health
flags kept in the collection's `server_status` map. -/
structure ServerStatus where
  isWiggling : Bool
  isFailed : Bool
  isUndesired : Bool
  isWrongConfiguration : Bool
deriving DecidableEq, Repr

/-- `ServerStatus::isUnhealthy` (line 409): failed or undesired. -/
def ServerStatus.isUnhealthy (s : ServerStatus) : Bool :=
  s.isFailed || s.isUndesired

/-! ### addTeam (C1)

`DDTeamCollection::addTeam(const std::vector<Reference<TCServerInfo>>&, bool, bool)`
(lines 1397-1451).  Only the classification into `teams` / `badTeams` is in
scope; the machine-team bookkeeping that follows for good teams does not touch
either list.  A team is represented by its member list, the replication policy
by the predicate `satisfiesPolicy` (the policy evaluator is an external,
pure collaborator). -/

/-- The part of `DDTeamCollection` state that `addTeam`'s classification
reads and writes. -/
structure TeamCollectionTeams where
  storageTeamSize : Nat
  satisfiesPolicy : List UID → Bool
  teams : List (List UID)
  badTeams : List (List UID)

/-- `DDTeamCollection::addTeam` (lines 1397-1451): computes
`badTeam = redundantTeam || size != storageTeamSize || !satisfiesPolicy` and
appends the new team to `badTeams` (returning early) or to `teams`. -/
def addTeam (tc : TeamCollectionTeams) (newTeamServers : List UID)
    (redundantTeam : Bool) : TeamCollectionTeams :=
  let badTeam := redundantTeam || !(newTeamServers.length == tc.storageTeamSize) ||
    !(tc.satisfiesPolicy newTeamServers)
  if badTeam then
    { tc with badTeams := tc.badTeams ++ [newTeamServers] }
  else
    { tc with teams := tc.teams ++ [newTeamServers] }

/-- **C1.** The new team is classified as a bad team (appended to `badTeams`
and never to `teams`) exactly when it was flagged redundant, or its size
differs from the configured `storageTeamSize`, or its members do not satisfy
the replication policy; consequently every team on the `teams` list has
exactly `storageTeamSize` members and satisfies the replication policy at the
moment it is added. -/
theorem claimC1_addTeam (tc : TeamCollectionTeams) (newTeamServers : List UID)
    (redundantTeam : Bool) :
    (((addTeam tc newTeamServers redundantTeam).badTeams = tc.badTeams ++ [newTeamServers] ∧
        (addTeam tc newTeamServers redundantTeam).teams = tc.teams) ↔
      (redundantTeam = true ∨ newTeamServers.length ≠ tc.storageTeamSize ∨
        tc.satisfiesPolicy newTeamServers = false)) ∧
    (((addTeam tc newTeamServers redundantTeam).teams = tc.teams ++ [newTeamServers] ∧
        (addTeam tc newTeamServers redundantTeam).badTeams = tc.badTeams) ↔
      ¬(redundantTeam = true ∨ newTeamServers.length ≠ tc.storageTeamSize ∨
        tc.satisfiesPolicy newTeamServers = false)) ∧
    (∀ t ∈ (addTeam tc newTeamServers redundantTeam).teams,
      t ∈ tc.teams ∨ (t.length = tc.storageTeamSize ∧ tc.satisfiesPolicy t = true)) := by
  have hcond : (redundantTeam || !(newTeamServers.length == tc.storageTeamSize) ||
      !(tc.satisfiesPolicy newTeamServers)) = true ↔
      (redundantTeam = true ∨ newTeamServers.length ≠ tc.storageTeamSize ∨
        tc.satisfiesPolicy newTeamServers = false) := by
    simp [Bool.not_eq_true', or_assoc]
  by_cases hb : (redundantTeam || !(newTeamServers.length == tc.storageTeamSize) ||
      !(tc.satisfiesPolicy newTeamServers)) = true
  · have h1 : addTeam tc newTeamServers redundantTeam =
        { tc with badTeams := tc.badTeams ++ [newTeamServers] } := by
      simp only [addTeam, hb, if_true]
    rw [h1]
    refine ⟨iff_of_true ⟨rfl, rfl⟩ (hcond.mp hb), iff_of_false ?_ ?_, ?_⟩
    · rintro ⟨h, -⟩
      have := congrArg List.length h
      simp at this
    · exact fun hn => hn (hcond.mp hb)
    · exact fun t ht => Or.inl ht
  · have h1 : addTeam tc newTeamServers redundantTeam =
        { tc with teams := tc.teams ++ [newTeamServers] } := by
      simp only [addTeam, if_neg hb]
    have hgood : newTeamServers.length = tc.storageTeamSize ∧
        tc.satisfiesPolicy newTeamServers = true := by
      have h2 := (hcond.not.mp hb)
      push_neg at h2
      exact ⟨h2.2.1, by simpa using h2.2.2⟩
    rw [h1]
    refine ⟨iff_of_false ?_ (fun h => hb (hcond.mpr h)), iff_of_true ⟨rfl, rfl⟩
      (fun h => hb (hcond.mpr h)), ?_⟩
    · rintro ⟨h, -⟩
      have := congrArg List.length h
      simp at this
    · intro t ht
      rcases List.mem_append.mp ht with ht | ht
      · exact Or.inl ht
      · rcases List.mem_singleton.mp ht with rfl
        exact Or.inr hgood

/-! ### getLoadAverage (C8)

`TCTeamInfo::getLoadAverage` (lines 370-383). -/

/-- The fields of a `GetStorageMetricsReply` read by the embedded code:
`load.bytes`, `available.bytes`, `capacity.bytes`. -/
structure StorageMetricsReply where
  loadBytes : Int
  availableBytes : Int
  capacityBytes : Int
deriving DecidableEq, Repr

/-- The fields of `TCServerInfo` read by the team-metric code: the last
metrics reply (if any) and the data-in-flight counter. -/
structure TCServerInfo where
  serverMetrics : Option StorageMetricsReply
  dataInFlightToServer : Int
deriving DecidableEq, Repr

/-- `TCTeamInfo::getLoadAverage` (lines 370-383): sum `load.bytes` over the
servers whose metrics are present, double the sum when some server did not
reply, and divide (C++ truncated division) by the number of replies; `0` when
there was no reply at all. -/
def getLoadAverage (servers : List TCServerInfo) : Int :=
  let acc := servers.foldl
    (fun (p : Int × Nat) server =>
      match server.serverMetrics with
      | some reply => (p.1 + reply.loadBytes, p.2 + 1)
      | none => p)
    (0, 0)
  let bytesSum := if acc.2 < servers.length then acc.1 * 2 else acc.1
  if acc.2 = 0 then 0 else Int.tdiv bytesSum (acc.2 : Int)

/-- The load average as the specification words it: `0` when no member
reported; otherwise the sum of the reporting members' `load.bytes`, first
doubled when at least one member did not report, divided (truncated) by the
number of members that reported. -/
def loadAverageSpec (servers : List TCServerInfo) : Int :=
  let reported := servers.filterMap (fun server => server.serverMetrics)
  if reported.length = 0 then 0
  else
    let total := (reported.map (fun reply => reply.loadBytes)).sum
    let total := if reported.length < servers.length then total * 2 else total
    Int.tdiv total (reported.length : Int)

/-- The fold in `getLoadAverage` accumulates exactly the reported sum and the
reported count. -/
theorem getLoadAverage_fold (servers : List TCServerInfo) (a : Int) (n : Nat) :
    servers.foldl
      (fun (p : Int × Nat) server =>
        match server.serverMetrics with
        | some reply => (p.1 + reply.loadBytes, p.2 + 1)
        | none => p)
      (a, n) =
    (a + ((servers.filterMap (fun s => s.serverMetrics)).map
        (fun reply => reply.loadBytes)).sum,
      n + (servers.filterMap (fun s => s.serverMetrics)).length) := by
  induction servers generalizing a n with
  | nil => simp
  | cons s rest ih =>
    cases h : s.serverMetrics with
    | none => simp [List.foldl_cons, h, ih]
    | some reply =>
      simp only [List.foldl_cons, h, ih, List.filterMap_cons, List.map_cons,
        List.sum_cons, List.length_cons]
      refine Prod.ext ?_ ?_ <;> simp <;> ring

/-- **C8.** For every team, `getLoadAverage` returns `0` when no member has
reported metrics; otherwise it returns the integer quotient of the sum of the
reporting members' `load.bytes` — the sum first doubled if at least one member
did not report — divided by the number of members that reported (not the team
size). -/
theorem claimC8_getLoadAverage (servers : List TCServerInfo) :
    getLoadAverage servers = loadAverageSpec servers := by
  unfold getLoadAverage loadAverageSpec
  rw [getLoadAverage_fold]
  simp

/-! ### exclusionSafetyCheck (C9)

`_exclusionSafetyCheck` (lines 6389-6410) and the `ddExclusionSafetyCheck`
request handler (lines 6412-6430).  `std::set_intersection` over the two
sorted ID vectors computes their multiset intersection, whose size is
order-independent: it is embedded as `List.bagInter`. -/

/-- `_exclusionSafetyCheck` (lines 6389-6410): for each team, the size of the
multiset intersection of its (sorted) member IDs with the (sorted) excluded
IDs is subtracted from the team size; the check fails as soon as the leftover
is below `SERVER_KNOBS->DD_EXCLUDE_MIN_REPLICAS` (the knob is the
`ddExcludeMinReplicas` parameter). -/
def exclusionSafetyCheck (excludeServerIDs : List UID) (teams : List (List UID))
    (ddExcludeMinReplicas : Nat) : Bool :=
  teams.all fun teamServerIDs =>
    !(teamServerIDs.length - (teamServerIDs.bagInter excludeServerIDs).length <
      ddExcludeMinReplicas)

/-- `ddExclusionSafetyCheck` (lines 6412-6430): replies `safe = false` when
the distributor has no team collection, or when the collection holds at most
one team; otherwise it resolves the excluded addresses to server IDs and
replies with `_exclusionSafetyCheck`.  Address resolution is external, so the
handler is modelled from the resolved ID list on. -/
def ddExclusionSafetyCheckReply (teamCollection : Option (List (List UID)))
    (excludeServerIDs : List UID) (ddExcludeMinReplicas : Nat) : Bool :=
  match teamCollection with
  | none => false
  | some teams =>
    if teams.length ≤ 1 then false
    else exclusionSafetyCheck excludeServerIDs teams ddExcludeMinReplicas

/-- On a duplicate-free team, the multiset intersection with the excluded IDs
is the sublist of members that are excluded. -/
theorem bagInter_eq_filter_of_nodup (team : List UID) (excl : List UID)
    (h : team.Nodup) :
    team.bagInter excl = team.filter (fun id => excl.contains id) := by
  induction team generalizing excl with
  | nil => simp
  | cons a rest ih =>
    rcases List.nodup_cons.mp h with ⟨ha, hrest⟩
    by_cases hmem : a ∈ excl
    · have hfilter : rest.filter (fun id => (excl.erase a).contains id) =
          rest.filter (fun id => excl.contains id) := by
        apply List.filter_congr
        intro b hb
        have hne : b ≠ a := fun hba => ha (hba ▸ hb)
        simp [List.elem_iff, List.mem_erase_of_ne hne]
      rw [List.cons_bagInter_of_pos _ hmem, ih (excl.erase a) hrest, hfilter,
        List.filter_cons]
      simp [hmem]
    · rw [List.cons_bagInter_of_neg _ hmem, ih excl hrest, List.filter_cons]
      simp [hmem]

/-- **C9.** `_exclusionSafetyCheck` returns true exactly when every team in
the collection retains at least `DD_EXCLUDE_MIN_REPLICAS` members outside the
excluded set (team member lists are duplicate-free); in addition, the
`ddExclusionSafetyCheck` request handler replies unsafe whenever the team
collection is absent or holds at most one team, regardless of the exclusion
list. -/
theorem claimC9_exclusionSafetyCheck (excludeServerIDs : List UID)
    (teams : List (List UID)) (ddExcludeMinReplicas : Nat)
    (hnodup : ∀ team ∈ teams, team.Nodup) :
    (exclusionSafetyCheck excludeServerIDs teams ddExcludeMinReplicas = true ↔
      ∀ team ∈ teams, ddExcludeMinReplicas ≤
        (team.filter (fun id => !excludeServerIDs.contains id)).length) ∧
    (∀ excl k, ddExclusionSafetyCheckReply none excl k = false) ∧
    (∀ excl k, teams.length ≤ 1 →
      ddExclusionSafetyCheckReply (some teams) excl k = false) := by
  refine ⟨?_, fun excl k => rfl, fun excl k h => by simp [ddExclusionSafetyCheckReply, h]⟩
  unfold exclusionSafetyCheck
  rw [List.all_eq_true]
  refine forall_congr' fun team => ?_
  refine forall_congr' fun hmem => ?_
  rw [bagInter_eq_filter_of_nodup team excludeServerIDs (hnodup team hmem)]
  have hsplit : team.length =
      (team.filter (fun id => excludeServerIDs.contains id)).length +
        (team.filter (fun id => !excludeServerIDs.contains id)).length :=
    List.length_eq_length_filter_add _
  rw [Bool.not_eq_true', decide_eq_false_iff_not, not_lt]
  omega

/-! ### excludeStorageServersForWiggle (C10)

`DDTeamCollection::excludeStorageServersForWiggle` (lines 2862-2879).  The
exclusion map `excludedServers : AsyncMap<AddressExclusion, Status>` is
modelled as an association list with `std::map`-style get/set. -/

/-- `DDTeamCollection::Status` — the per-address exclusion status. -/
inductive ExclusionStatus
  | NONE
  | WIGGLING
  | EXCLUDED
  | FAILED
deriving DecidableEq, Repr

/-- `AddressExclusion`: an (ip, port) pair. -/
structure AddressExclusion where
  ip : Nat
  port : Nat
deriving DecidableEq, Repr

/-- The exclusion map, `AsyncMap<AddressExclusion, Status>`. -/
abbrev ExclusionMap := List (AddressExclusion × ExclusionStatus)

/-- Map lookup: `count(addr)` plus `get(addr)` folded into one `Option`. -/
def exclusionGet (m : ExclusionMap) (addr : AddressExclusion) :
    Option ExclusionStatus :=
  (m.find? (fun p => p.1 == addr)).map (fun p => p.2)

/-- Map update `set(addr, status)`: insert-or-assign. -/
def exclusionSet (m : ExclusionMap) (addr : AddressExclusion)
    (status : ExclusionStatus) : ExclusionMap :=
  (addr, status) :: m.filter (fun p => !(p.1 == addr))

theorem find?_filter_ne (m : ExclusionMap) (addr b : AddressExclusion)
    (hb : b ≠ addr) :
    List.find? (fun p => p.1 == b) (m.filter (fun p => !(p.1 == addr))) =
      List.find? (fun p => p.1 == b) m := by
  induction m with
  | nil => rfl
  | cons p rest ih =>
    by_cases hpb : p.1 = b
    · have hpa : ¬p.1 = addr := fun h => hb (hpb ▸ h)
      rw [List.filter_cons_of_pos (by simp [hpa]),
        List.find?_cons_of_pos _ (by simp [hpb]),
        List.find?_cons_of_pos _ (by simp [hpb])]
    · by_cases hpa : p.1 = addr
      · rw [List.filter_cons_of_neg (by simp [hpa]),
          List.find?_cons_of_neg _ (by simp [hpb]), ih]
      · rw [List.filter_cons_of_pos (by simp [hpa]),
          List.find?_cons_of_neg _ (by simp [hpb]),
          List.find?_cons_of_neg _ (by simp [hpb]), ih]

theorem exclusionGet_exclusionSet (m : ExclusionMap) (addr b : AddressExclusion)
    (status : ExclusionStatus) :
    exclusionGet (exclusionSet m addr status) b =
      if b = addr then some status else exclusionGet m b := by
  unfold exclusionGet exclusionSet
  by_cases hb : b = addr
  · subst hb
    rw [List.find?_cons_of_pos _ (by simp), if_pos rfl]
    rfl
  · rw [List.find?_cons_of_neg _ (by simp; exact fun h => hb h.symm),
      find?_filter_ne m addr b hb, if_neg hb]

/-- The per-server data read by the wiggle-exclusion pass: the address of
`lastKnownInterface.address()` as an `AddressExclusion`. -/
structure WiggleServerInfo where
  address : AddressExclusion
deriving DecidableEq, Repr

/-- The collection state touched by `excludeStorageServersForWiggle`. -/
structure WiggleExclusionState where
  excludedServers : ExclusionMap
  wiggleAddresses : List AddressExclusion
deriving DecidableEq, Repr

/-- The loop body of `excludeStorageServersForWiggle` for one server on the
wiggled process: skip when the address is already present with a status other
than `NONE` (set by the `trackExcludedServer` actor), otherwise record the
address and set its status to `WIGGLING`. -/
def excludeForWiggleStep (st : WiggleExclusionState) (info : WiggleServerInfo) :
    WiggleExclusionState :=
  let addr := info.address
  match exclusionGet st.excludedServers addr with
  | some status =>
    if status ≠ ExclusionStatus.NONE then st
    else
      { excludedServers := exclusionSet st.excludedServers addr ExclusionStatus.WIGGLING,
        wiggleAddresses := st.wiggleAddresses ++ [addr] }
  | none =>
    { excludedServers := exclusionSet st.excludedServers addr ExclusionStatus.WIGGLING,
      wiggleAddresses := st.wiggleAddresses ++ [addr] }

/-- `DDTeamCollection::excludeStorageServersForWiggle(pid)` (lines 2862-2879),
restricted to its effect on the exclusion map and the wiggle-address list
(`moveFutures` and the recruiter trigger carry no map state).
`pid2server_info` maps a process ID to the servers it hosts. -/
def excludeStorageServersForWiggle
    (pid2server_info : UID → Option (List WiggleServerInfo))
    (st : WiggleExclusionState) (pid : UID) : WiggleExclusionState :=
  match pid2server_info pid with
  | none => st
  | some infos => infos.foldl excludeForWiggleStep st

/-- Effect of one wiggle-exclusion step on a lookup. -/
theorem excludeForWiggleStep_get (st : WiggleExclusionState) (info : WiggleServerInfo)
    (a : AddressExclusion) :
    exclusionGet (excludeForWiggleStep st info).excludedServers a =
      if a = info.address ∧ (exclusionGet st.excludedServers a = none ∨
          exclusionGet st.excludedServers a = some ExclusionStatus.NONE) then
        some ExclusionStatus.WIGGLING
      else exclusionGet st.excludedServers a := by
  unfold excludeForWiggleStep
  by_cases ha : a = info.address
  · subst ha
    cases hg : exclusionGet st.excludedServers info.address with
    | none => simp [hg, exclusionGet_exclusionSet]
    | some s =>
      by_cases hs : s = ExclusionStatus.NONE
      · subst hs
        simp [hg, exclusionGet_exclusionSet]
      · simp [hg, hs]
  · cases hg : exclusionGet st.excludedServers info.address with
    | none => simp [hg, exclusionGet_exclusionSet, ha]
    | some s =>
      by_cases hs : s = ExclusionStatus.NONE
      · subst hs
        simp [hg, exclusionGet_exclusionSet, ha]
      · simp [hg, hs, ha]

/-- Effect of the whole per-process loop on a lookup: an address of one of the
process's servers whose entry was absent or `NONE` ends at `WIGGLING`; every
other entry is untouched. -/
theorem excludeForWiggle_foldl_get (infos : List WiggleServerInfo)
    (st : WiggleExclusionState) (a : AddressExclusion) :
    exclusionGet ((infos.foldl excludeForWiggleStep st).excludedServers) a =
      if (∃ info ∈ infos, info.address = a) ∧
          (exclusionGet st.excludedServers a = none ∨
            exclusionGet st.excludedServers a = some ExclusionStatus.NONE) then
        some ExclusionStatus.WIGGLING
      else exclusionGet st.excludedServers a := by
  induction infos generalizing st with
  | nil => simp
  | cons i rest ih =>
    rw [List.foldl_cons, ih, excludeForWiggleStep_get]
    by_cases hia : a = i.address
    · subst hia
      by_cases c0 : (exclusionGet st.excludedServers i.address = none ∨
          exclusionGet st.excludedServers i.address = some ExclusionStatus.NONE) <;>
        simp [c0]
    · by_cases c0 : (exclusionGet st.excludedServers a = none ∨
          exclusionGet st.excludedServers a = some ExclusionStatus.NONE) <;>
        simp [hia, Ne.symm hia, c0]

/-- **C10.** `excludeStorageServersForWiggle(pid)` sets exclusion status
`WIGGLING` only for addresses of storage servers on process `pid` whose
current status is `NONE` or absent; every address already mapped to a
non-`NONE` status (`WIGGLING`, `EXCLUDED`, or `FAILED`) keeps its previous
status, and the exclusion entry of every address not belonging to process
`pid` is unchanged. -/
theorem claimC10_excludeStorageServersForWiggle
    (pid2server_info : UID → Option (List WiggleServerInfo))
    (st : WiggleExclusionState) (pid : UID) :
    (∀ a s, exclusionGet st.excludedServers a = some s → s ≠ ExclusionStatus.NONE →
      exclusionGet
        (excludeStorageServersForWiggle pid2server_info st pid).excludedServers a =
        some s) ∧
    (∀ a, (∀ infos, pid2server_info pid = some infos →
        ∀ info ∈ infos, info.address ≠ a) →
      exclusionGet
        (excludeStorageServersForWiggle pid2server_info st pid).excludedServers a =
        exclusionGet st.excludedServers a) ∧
    (∀ a, exclusionGet
        (excludeStorageServersForWiggle pid2server_info st pid).excludedServers a ≠
        exclusionGet st.excludedServers a →
      exclusionGet
        (excludeStorageServersForWiggle pid2server_info st pid).excludedServers a =
        some ExclusionStatus.WIGGLING) ∧
    (∀ a infos, pid2server_info pid = some infos →
      (∃ info ∈ infos, info.address = a) →
      (exclusionGet st.excludedServers a = none ∨
        exclusionGet st.excludedServers a = some ExclusionStatus.NONE) →
      exclusionGet
        (excludeStorageServersForWiggle pid2server_info st pid).excludedServers a =
        some ExclusionStatus.WIGGLING) := by
  cases hp : pid2server_info pid with
  | none =>
    have he : excludeStorageServersForWiggle pid2server_info st pid = st := by
      unfold excludeStorageServersForWiggle
      rw [hp]
    rw [he]
    refine ⟨fun a s hg _ => hg, fun a _ => rfl, fun a h => absurd rfl h, ?_⟩
    intro a infos hinfos
    exact absurd hinfos (by simp)
  | some infos =>
    have he : excludeStorageServersForWiggle pid2server_info st pid =
        infos.foldl excludeForWiggleStep st := by
      unfold excludeStorageServersForWiggle
      rw [hp]
    rw [he]
    refine ⟨?_, ?_, ?_, ?_⟩
    · intro a s hg hs
      rw [excludeForWiggle_foldl_get, if_neg, hg]
      rintro ⟨-, h | h⟩ <;> rw [hg] at h <;> simp_all
    · intro a hnone
      rw [excludeForWiggle_foldl_get, if_neg]
      rintro ⟨⟨info, hinfo, haddr⟩, -⟩
      exact hnone infos rfl info hinfo haddr
    · intro a hne
      rw [excludeForWiggle_foldl_get] at hne ⊢
      by_cases hc : (∃ info ∈ infos, info.address = a) ∧
          (exclusionGet st.excludedServers a = none ∨
            exclusionGet st.excludedServers a = some ExclusionStatus.NONE)
      · rw [if_pos hc]
      · rw [if_neg hc] at hne
        exact absurd rfl hne
    · intro a infos2 hinfos2 hex hst
      cases hinfos2
      rw [excludeForWiggle_foldl_get, if_pos ⟨hex, hst⟩]

/-! ### Storage recruitment guard (C5)

`numExistingSSOnAddr` (lines 5023-5034) and the admission guard at the top of
`initializeStorage` (lines 5125-5133).  The `storageRecruiter` loop
(lines 5396-5405) only logs a warning for `numExistingSS >= 2` and always
hands the candidate to `initializeStorage`; the decision whether an
initialize-storage request is sent is the guard below, and
`restartRecruiting.trigger()` runs unconditionally when the actor finishes. -/

/-- `numExistingSSOnAddr` (lines 5023-5034): how many entries of
`server_and_tss_info` share the candidate's stable (ip, port) address. -/
def numExistingSSOnAddr (serverAndTssAddrs : List AddressExclusion)
    (addr : AddressExclusion) : Nat :=
  (serverAndTssAddrs.filter (fun usedAddr => usedAddr == addr)).length

/-- The guard of `initializeStorage` (lines 5129-5133): an
initialize-storage request is prepared and sent iff
`numExistingSSOnAddr(workerAddr) <= 2` and no recruitment is in flight for
the candidate's stable address. -/
def initializeStorageSendsRequest (serverAndTssAddrs : List AddressExclusion)
    (recruitingLocalities : List AddressExclusion)
    (candidateAddr : AddressExclusion) : Bool :=
  decide (numExistingSSOnAddr serverAndTssAddrs candidateAddr ≤ 2) &&
    !(recruitingLocalities.contains candidateAddr)

/-- Counterexample to C5 as stated: an address that already hosts exactly 2
storage servers, with no recruitment in flight, still gets the
initialize-storage request (the code's guard is `<= 2`, not `< 2`). -/
theorem claimC5_counterexample :
    numExistingSSOnAddr
        [AddressExclusion.mk 1 1, AddressExclusion.mk 1 1] (AddressExclusion.mk 1 1) = 2 ∧
      initializeStorageSendsRequest
        [AddressExclusion.mk 1 1, AddressExclusion.mk 1 1] []
        (AddressExclusion.mk 1 1) = true := by
  constructor <;> rfl

/-- **C5 (amended).** For every candidate worker delivered to the recruiter:
if the candidate's stable address already hosts more than 2 (that is, at
least 3) storage servers, or a recruitment is already in flight for that
address, no initialize-storage request is sent to it; the recruiter triggers
`restartRecruiting` when the attempt finishes either way. -/
theorem claimC5_initializeStorage_guard (serverAndTssAddrs : List AddressExclusion)
    (recruitingLocalities : List AddressExclusion)
    (candidateAddr : AddressExclusion) :
    initializeStorageSendsRequest serverAndTssAddrs recruitingLocalities
        candidateAddr = false ↔
      (2 < numExistingSSOnAddr serverAndTssAddrs candidateAddr ∨
        candidateAddr ∈ recruitingLocalities) := by
  constructor
  · intro h
    by_cases hm : candidateAddr ∈ recruitingLocalities
    · exact Or.inr hm
    · left
      by_contra hn
      have hsend : initializeStorageSendsRequest serverAndTssAddrs
          recruitingLocalities candidateAddr = true := by
        unfold initializeStorageSendsRequest
        have h1 : numExistingSSOnAddr serverAndTssAddrs candidateAddr ≤ 2 := by omega
        simp [h1, List.elem_iff, hm]
      rw [hsend] at h
      cases h
  · intro h
    unfold initializeStorageSendsRequest
    rcases h with h | h
    · have h1 : decide (numExistingSSOnAddr serverAndTssAddrs candidateAddr ≤ 2) = false := by
        simp
        omega
      simp [h1]
    · simp [List.elem_iff, h]

/-! ### isMachineHealthy and the snapshot task (C4)

`DDTeamCollection::isMachineHealthy` (lines 1844-1858) and the machine loop of
`printSnapshotTeamsInfo` (lines 3123-3147). -/

/-- A `Reference<TCMachineInfo>` together with the record it points to:
`valid` is `Reference::isValid()`. -/
structure MachineRef where
  valid : Bool
  machineID : UID
  serversOnMachine : List UID
deriving DecidableEq, Repr

/-- `DDTeamCollection::isMachineHealthy` (lines 1844-1858): false for an
invalid reference, an unregistered machine ID or an empty server list;
otherwise true iff some server on the machine is not unhealthy. -/
def isMachineHealthy (machineRegistry : List UID) (serverStatus : UID → ServerStatus)
    (machine : MachineRef) : Bool :=
  if !machine.valid || !(machineRegistry.contains machine.machineID) ||
      machine.serversOnMachine.isEmpty then
    false
  else
    machine.serversOnMachine.any (fun s => !(serverStatus s).isUnhealthy)

/-- The machine-health predicate as the specification words it: the machine
reference is valid, the machine is registered, and at least one server on it
is neither failed nor undesired. -/
def machineHealthySpec (machineRegistry : List UID) (serverStatus : UID → ServerStatus)
    (machine : MachineRef) : Bool :=
  machine.valid && machineRegistry.contains machine.machineID &&
    machine.serversOnMachine.any (fun s => !(serverStatus s).isUnhealthy)

/-- The per-machine `Healthy` value computed and logged by the machine loop of
`printSnapshotTeamsInfo` (lines 3123-3147): the local `isMachineHealthy`
variable starts each iteration at `false` (the previous iteration left it
`false`), is set by the same checks as the predicate, and is then overwritten
to `false` immediately before the `TraceEvent("MachineInfo")` that logs it. -/
def snapshotMachineHealthyLogged (machineRegistry : List UID)
    (serverStatus : UID → ServerStatus) (machine : MachineRef) : Bool :=
  let h0 := false
  let h1 := if !machine.valid || !(machineRegistry.contains machine.machineID) ||
      machine.serversOnMachine.isEmpty then false else h0
  let h2 := machine.serversOnMachine.foldl
    (fun acc s => if !(serverStatus s).isUnhealthy then true else acc) h1
  let _ := h2
  false

/-- The code's `isMachineHealthy` agrees with the claim's wording of the
predicate. -/
theorem isMachineHealthy_eq_spec (machineRegistry : List UID)
    (serverStatus : UID → ServerStatus) (machine : MachineRef) :
    isMachineHealthy machineRegistry serverStatus machine =
      machineHealthySpec machineRegistry serverStatus machine := by
  unfold isMachineHealthy machineHealthySpec
  by_cases hv : machine.valid <;>
    by_cases hr : machineRegistry.contains machine.machineID <;>
      cases hm : machine.serversOnMachine <;> simp [hv, hr, hm]

/-- **C4 (code bug).** At a machine that is valid, registered, and hosts one
healthy server, `isMachineHealthy` returns true, but the `Healthy` value the
snapshot task logs for it is `false`: the snapshot loop overwrites its local
result with `false` right before logging, so the logged value never equals
the predicate on a healthy machine. -/
theorem claimC4_snapshot_bug :
    isMachineHealthy [7] (fun _ => ServerStatus.mk false false false false)
        (MachineRef.mk true 7 [3]) = true ∧
      snapshotMachineHealthyLogged [7] (fun _ => ServerStatus.mk false false false false)
        (MachineRef.mk true 7 [3]) = false ∧
      isMachineHealthy [7] (fun _ => ServerStatus.mk false false false false)
          (MachineRef.mk true 7 [3]) ≠
        snapshotMachineHealthyLogged [7] (fun _ => ServerStatus.mk false false false false)
          (MachineRef.mk true 7 [3]) := by
  refine ⟨rfl, rfl, ?_⟩
  decide

/-! ### waitForAllDataRemoved and the failure tracker (C2)

`waitForAllDataRemoved` (lines 4392-4421) and the removal branch of
`storageServerFailureTracker` (lines 4506-4508).  Each iteration of the
retry loop observes a read version, the `canRemoveStorageServer` reply and
the external shard counter; the loop returns only when one observation
passes all three checks, and otherwise delays and retries. -/

/-- What one iteration of the `waitForAllDataRemoved` loop observes. -/
structure RemovalObservation where
  ver : Nat
  canRemove : Bool
  numShards : Nat
deriving DecidableEq, Repr

/-- The return condition of one iteration (lines 4402-4412):
`ver > addedVersion + MAX_READ_TRANSACTION_LIFE_VERSIONS`, and then
`canRemove && getNumberOfShards(serverID) == 0`. -/
def waitForAllDataRemovedDone (addedVersion maxReadTransactionLifeVersions : Nat)
    (o : RemovalObservation) : Bool :=
  decide (addedVersion + maxReadTransactionLifeVersions < o.ver) &&
    (o.canRemove && decide (o.numShards = 0))

/-- The `waitForAllDataRemoved` retry loop over a trace of observations:
the index of the first iteration whose observation passes the return
condition, `none` when the given trace never passes (the actor keeps
waiting). -/
def waitForAllDataRemovedRun (addedVersion maxLife : Nat) :
    List RemovalObservation → Option Nat
  | [] => none
  | o :: rest =>
    if waitForAllDataRemovedDone addedVersion maxLife o then some 0
    else (waitForAllDataRemovedRun addedVersion maxLife rest).map (fun i => i + 1)

/-- The removal branch of `storageServerFailureTracker` (lines 4506-4508):
the `when(wait(status->isUnhealthy() ? waitForAllDataRemoved(...) : Never()))`
arm breaks out of the tracker loop (letting removal proceed) only when the
server status is unhealthy and the `waitForAllDataRemoved` future completed. -/
def storageServerFailureTrackerRemoves (isUnhealthy : Bool)
    (addedVersion maxLife : Nat) (obs : List RemovalObservation) : Bool :=
  isUnhealthy && (waitForAllDataRemovedRun addedVersion maxLife obs).isSome

/-- **C2.** `waitForAllDataRemoved` returns normally only when both (i) the
external shard counter is 0 with the server confirmed removable and (ii) an
observed read version exceeds `addedVersion + MAX_READ_TRANSACTION_LIFE_VERSIONS`;
the server-removal branch of the failure tracker fires only after this future
completes, so a server is never removed before its data is drained and its
added version has aged. -/
theorem claimC2_waitForAllDataRemoved (isUnhealthy : Bool)
    (addedVersion maxLife : Nat) (obs : List RemovalObservation)
    (h : storageServerFailureTrackerRemoves isUnhealthy addedVersion maxLife obs = true) :
    isUnhealthy = true ∧ ∃ (i : Nat) (o : RemovalObservation), obs[i]? = some o ∧
      addedVersion + maxLife < o.ver ∧ o.canRemove = true ∧ o.numShards = 0 := by
  rw [storageServerFailureTrackerRemoves, Bool.and_eq_true] at h
  rcases h with ⟨hu, hrun⟩
  refine ⟨hu, ?_⟩
  clear hu
  induction obs with
  | nil => simp [waitForAllDataRemovedRun] at hrun
  | cons o rest ih =>
    rw [waitForAllDataRemovedRun] at hrun
    by_cases hd : waitForAllDataRemovedDone addedVersion maxLife o = true
    · rw [waitForAllDataRemovedDone, Bool.and_eq_true, Bool.and_eq_true] at hd
      rcases hd with ⟨h1, h2, h3⟩
      exact ⟨0, o, by simp, of_decide_eq_true h1, h2, of_decide_eq_true h3⟩
    · rw [if_neg hd] at hrun
      rcases ih (by simpa using hrun) with ⟨i, o', hio, hv, hc, hs⟩
      exact ⟨i + 1, o', by simpa using hio, hv, hc, hs⟩

/-- Witness for C2 at a concrete trace: an unhealthy server whose second
observation has an aged read version, a removable server and zero shards. -/
theorem claimC2_witness :
    true = true ∧ ∃ (i : Nat) (o : RemovalObservation),
      ([RemovalObservation.mk 3 false 2, RemovalObservation.mk 20 true 0] :
        List RemovalObservation)[i]? = some o ∧
      4 + 10 < o.ver ∧ o.canRemove = true ∧ o.numShards = 0 :=
  claimC2_waitForAllDataRemoved true 4 10
    [RemovalObservation.mk 3 false 2, RemovalObservation.mk 20 true 0] (by decide)

/-- Witness for C9 at a concrete collection: two disjoint triple teams, one
excluded server, minimum two replicas. -/
theorem claimC9_witness :
    (exclusionSafetyCheck [1] [[1, 2, 3], [4, 5, 6]] 2 = true ↔
      ∀ team ∈ ([[1, 2, 3], [4, 5, 6]] : List (List UID)), 2 ≤
        (team.filter (fun id => !([1] : List UID).contains id)).length) ∧
    (∀ excl k, ddExclusionSafetyCheckReply none excl k = false) ∧
    (∀ excl k, ([[1, 2, 3], [4, 5, 6]] : List (List UID)).length ≤ 1 →
      ddExclusionSafetyCheckReply (some [[1, 2, 3], [4, 5, 6]]) excl k = false) :=
  claimC9_exclusionSafetyCheck [1] [[1, 2, 3], [4, 5, 6]] 2 (by decide)

/-! ### Team priority (C3)

The priority computation of `teamTracker` (lines 3677-3703), with the
aggregates `serversLeft`, `serverUndesired`, `serverWrongConf`,
`serverWiggling`, `anyUndesired`, `anyWrongConfiguration`,
`anyWigglingServer` computed from the members' statuses (lines 3546-3569).
The priority knobs live outside the repository sources, so only their
identities matter; they are modelled as an enumeration. -/

/-- The `SERVER_KNOBS->PRIORITY_*` constants assigned by the team tracker. -/
inductive TeamPriority
  | POPULATE_REGION
  | TEAM_0_LEFT
  | TEAM_1_LEFT
  | TEAM_2_LEFT
  | TEAM_UNHEALTHY
  | PERPETUAL_STORAGE_WIGGLE
  | TEAM_REDUNDANT
  | TEAM_CONTAINS_UNDESIRED_SERVER
  | TEAM_HEALTHY
deriving DecidableEq, Repr

/-- The priority computation of `teamTracker` (lines 3677-3703), as the code
orders it: the empty team, then the `serversLeft < storageTeamSize` ladder
(0 / 1 / 2 / otherwise unhealthy), then the wiggle case (non-bad team, some
wiggling member, and the wiggling, wrong-configuration and undesired member
counts all equal), then bad/wrong-configuration (redundant or unhealthy),
then undesired, else healthy.  `statuses` lists `server_status.get(uid)` for
the team's members. -/
def teamTrackerPriority (storageTeamSize : Nat) (badTeam redundantTeam : Bool)
    (statuses : List ServerStatus) : TeamPriority :=
  let serversLeft := (statuses.filter (fun s => !s.isFailed)).length
  let serverUndesired := (statuses.filter (fun s => s.isUndesired)).length
  let serverWrongConf := (statuses.filter (fun s => s.isWrongConfiguration)).length
  let serverWiggling := (statuses.filter (fun s => s.isWiggling)).length
  let anyUndesired := statuses.any (fun s => s.isUndesired)
  let anyWrongConfiguration := statuses.any (fun s => s.isWrongConfiguration)
  let anyWigglingServer := statuses.any (fun s => s.isWiggling)
  if statuses.length = 0 then
    TeamPriority.POPULATE_REGION
  else if serversLeft < storageTeamSize then
    if serversLeft = 0 then TeamPriority.TEAM_0_LEFT
    else if serversLeft = 1 then TeamPriority.TEAM_1_LEFT
    else if serversLeft = 2 then TeamPriority.TEAM_2_LEFT
    else TeamPriority.TEAM_UNHEALTHY
  else if !badTeam && anyWigglingServer && serverWiggling == serverWrongConf &&
      serverWiggling == serverUndesired then
    TeamPriority.PERPETUAL_STORAGE_WIGGLE
  else if badTeam || anyWrongConfiguration then
    if redundantTeam then TeamPriority.TEAM_REDUNDANT else TeamPriority.TEAM_UNHEALTHY
  else if anyUndesired then
    TeamPriority.TEAM_CONTAINS_UNDESIRED_SERVER
  else
    TeamPriority.TEAM_HEALTHY

/-- First-match evaluation of an ordered rule table. -/
def firstMatch : List (Bool × TeamPriority) → TeamPriority → TeamPriority
  | [], d => d
  | (c, p) :: rest, d => if c then p else firstMatch rest d

/-- The priority table exactly as claim C3 states it: the `serversLeft`
rows fire unguarded (`serversLeft == 1` decides `TEAM_1_LEFT` whatever the
team size), and the wiggle row asks that the wiggling members coincide with
the undesired and wrong-configuration members (as sets of members, i.e.
member-wise). -/
def claimedTeamPriority (storageTeamSize : Nat) (badTeam redundantTeam : Bool)
    (statuses : List ServerStatus) : TeamPriority :=
  let serversLeft := (statuses.filter (fun s => !s.isFailed)).length
  firstMatch
    [(statuses.length == 0, TeamPriority.POPULATE_REGION),
     (serversLeft == 0, TeamPriority.TEAM_0_LEFT),
     (serversLeft == 1, TeamPriority.TEAM_1_LEFT),
     (serversLeft == 2, TeamPriority.TEAM_2_LEFT),
     (decide (2 < serversLeft) && decide (serversLeft < storageTeamSize),
       TeamPriority.TEAM_UNHEALTHY),
     (!badTeam && statuses.any (fun s => s.isWiggling) &&
       statuses.all (fun s => s.isWiggling == s.isUndesired &&
         s.isWiggling == s.isWrongConfiguration),
       TeamPriority.PERPETUAL_STORAGE_WIGGLE),
     ((badTeam || statuses.any (fun s => s.isWrongConfiguration)) && redundantTeam,
       TeamPriority.TEAM_REDUNDANT),
     (badTeam || statuses.any (fun s => s.isWrongConfiguration),
       TeamPriority.TEAM_UNHEALTHY),
     (statuses.any (fun s => s.isUndesired),
       TeamPriority.TEAM_CONTAINS_UNDESIRED_SERVER)]
    TeamPriority.TEAM_HEALTHY

/-- Counterexample to C3 as stated: with `storageTeamSize = 1` and a
single-member team whose member is healthy, the claimed table fires its
`serversLeft == 1` row and yields `TEAM_1_LEFT`, while the code only enters
the `serversLeft` ladder under `serversLeft < storageTeamSize` and yields
`TEAM_HEALTHY`. -/
theorem claimC3_counterexample :
    teamTrackerPriority 1 false false [ServerStatus.mk false false false false] =
        TeamPriority.TEAM_HEALTHY ∧
      claimedTeamPriority 1 false false [ServerStatus.mk false false false false] =
        TeamPriority.TEAM_1_LEFT := by
  constructor <;> rfl

/-- The amended priority table: the 0/1/2 rows are guarded by
`serversLeft < storageTeamSize`, and the wiggle row compares the *counts* of
wiggling, wrong-configuration and undesired members (as the code does), not
the member sets. -/
def amendedTeamPriority (storageTeamSize : Nat) (badTeam redundantTeam : Bool)
    (statuses : List ServerStatus) : TeamPriority :=
  let serversLeft := (statuses.filter (fun s => !s.isFailed)).length
  let serverUndesired := (statuses.filter (fun s => s.isUndesired)).length
  let serverWrongConf := (statuses.filter (fun s => s.isWrongConfiguration)).length
  let serverWiggling := (statuses.filter (fun s => s.isWiggling)).length
  firstMatch
    [(statuses.length == 0, TeamPriority.POPULATE_REGION),
     (decide (serversLeft < storageTeamSize) && serversLeft == 0,
       TeamPriority.TEAM_0_LEFT),
     (decide (serversLeft < storageTeamSize) && serversLeft == 1,
       TeamPriority.TEAM_1_LEFT),
     (decide (serversLeft < storageTeamSize) && serversLeft == 2,
       TeamPriority.TEAM_2_LEFT),
     (decide (serversLeft < storageTeamSize), TeamPriority.TEAM_UNHEALTHY),
     (!badTeam && statuses.any (fun s => s.isWiggling) &&
       serverWiggling == serverWrongConf && serverWiggling == serverUndesired,
       TeamPriority.PERPETUAL_STORAGE_WIGGLE),
     ((badTeam || statuses.any (fun s => s.isWrongConfiguration)) && redundantTeam,
       TeamPriority.TEAM_REDUNDANT),
     (badTeam || statuses.any (fun s => s.isWrongConfiguration),
       TeamPriority.TEAM_UNHEALTHY),
     (statuses.any (fun s => s.isUndesired),
       TeamPriority.TEAM_CONTAINS_UNDESIRED_SERVER)]
    TeamPriority.TEAM_HEALTHY

/-- **C3 (amended).** Whenever the team tracker recomputes a team's priority,
the first matching rule of the amended ordered table decides the result:
size-0 team → POPULATE_REGION; when `serversLeft < storageTeamSize`:
serversLeft 0 / 1 / 2 → TEAM_{0,1,2}_LEFT, otherwise TEAM_UNHEALTHY;
otherwise non-bad team with a wiggling member whose wiggling count equals the
undesired and the wrong-configuration counts → PERPETUAL_WIGGLE; otherwise
bad team or any wrong-configuration member → TEAM_REDUNDANT when flagged
redundant, else TEAM_UNHEALTHY; otherwise any undesired member →
CONTAINS_UNDESIRED_SERVER; otherwise TEAM_HEALTHY. -/
theorem claimC3_teamTrackerPriority (storageTeamSize : Nat)
    (badTeam redundantTeam : Bool) (statuses : List ServerStatus) :
    teamTrackerPriority storageTeamSize badTeam redundantTeam statuses =
      amendedTeamPriority storageTeamSize badTeam redundantTeam statuses := by
  unfold teamTrackerPriority amendedTeamPriority
  by_cases h0 : statuses.length = 0
  · simp [firstMatch, h0]
  · have hne : statuses ≠ [] := by
      simpa [List.length_eq_zero] using h0
    simp only [h0, beq_iff_eq, if_false, decide_eq_true_eq]
    by_cases hlt : (statuses.filter (fun s => !s.isFailed)).length < storageTeamSize
    · by_cases he0 : (statuses.filter (fun s => !s.isFailed)).length = 0
      · have hpos : 0 < storageTeamSize := by omega
        simp [firstMatch, he0, hpos, hne]
      · by_cases he1 : (statuses.filter (fun s => !s.isFailed)).length = 1
        · have hpos : 1 < storageTeamSize := by omega
          simp [firstMatch, he0, he1, hpos, hne]
        · by_cases he2 : (statuses.filter (fun s => !s.isFailed)).length = 2
          · have hpos : 2 < storageTeamSize := by omega
            simp [firstMatch, he0, he1, he2, hpos, hne]
          · simp [firstMatch, hlt, he0, he1, he2, hne]
    · by_cases hbw : badTeam = true ∨ ∃ x ∈ statuses, x.isWrongConfiguration = true <;>
        by_cases hrd : redundantTeam = true <;>
          simp [firstMatch, hlt, hne, hbw, hrd]

/-! ### medianAvailableSpace refresh in getTeam (C6)

The refresh block of `DDTeamCollection::getTeam` (lines 898-928): collect
`getMinAvailableSpaceRatio()` over healthy teams, and with more than one
value take the `std::nth_element` pivot at index `size/2` (the element that
sorting would put there) clamped to
`[MIN_AVAILABLE_SPACE_RATIO, TARGET_AVAILABLE_SPACE_RATIO]`; with at most one
value use `MIN_AVAILABLE_SPACE_RATIO`.  Doubles are modelled as `ℚ`; the two
knobs live outside the repository sources and are parameters. -/

/-- `TCTeamInfo::getMinAvailableSpaceRatio(includeInFlight = true)`
(lines 312-334): the minimum over reporting servers of
`max(0, available - inflight) / capacity`, starting at `1.0`; a server whose
reported capacity is 0 resets the running value to 0. -/
def getMinAvailableSpaceRatio (servers : List TCServerInfo) : ℚ :=
  servers.foldl
    (fun minRatio server =>
      match server.serverMetrics with
      | none => minRatio
      | some reply =>
        let bytesAvailable := max 0 (reply.availableBytes - server.dataInFlightToServer)
        if reply.capacityBytes = 0 then 0
        else min minRatio ((bytesAvailable : ℚ) / (reply.capacityBytes : ℚ)))
    1

/-- The per-team data the refresh block reads: the health flag and the
members whose metrics feed `getMinAvailableSpaceRatio`. -/
structure TeamForSpace where
  healthy : Bool
  servers : List TCServerInfo
deriving DecidableEq, Repr

/-- The `medianAvailableSpace` refresh of `getTeam` (lines 901-919).
`std::nth_element` at `pivot` places there the element a full sort would; the
embedding sorts and indexes at `pivot = size / 2`. -/
def refreshMedianAvailableSpace (minAvailableSpaceRatioKnob : ℚ)
    (targetAvailableSpaceRatioKnob : ℚ) (teams : List TeamForSpace) : ℚ :=
  let teamAvailableSpace := (teams.filter (fun t => t.healthy)).map
    (fun t => getMinAvailableSpaceRatio t.servers)
  let pivot := teamAvailableSpace.length / 2
  if 1 < teamAvailableSpace.length then
    max minAvailableSpaceRatioKnob (min targetAvailableSpaceRatioKnob
      ((teamAvailableSpace.insertionSort (fun a b => a ≤ b)).getD pivot 0))
  else
    minAvailableSpaceRatioKnob

/-- **C6.** Whenever `getTeam` refreshes `medianAvailableSpace`, the new
value lies in the closed interval `[MIN_AVAILABLE_SPACE_RATIO,
TARGET_AVAILABLE_SPACE_RATIO]`: with at most one healthy team it equals
`MIN_AVAILABLE_SPACE_RATIO`, and otherwise it is the median (element at
index `size/2` of a sorted rearrangement) of the healthy teams' minimum
available-space ratios, clamped to that interval. -/
theorem claimC6_medianAvailableSpace (minKnob targetKnob : ℚ)
    (teams : List TeamForSpace) (hK : minKnob ≤ targetKnob) :
    (minKnob ≤ refreshMedianAvailableSpace minKnob targetKnob teams ∧
      refreshMedianAvailableSpace minKnob targetKnob teams ≤ targetKnob) ∧
    ((teams.filter (fun t => t.healthy)).length ≤ 1 →
      refreshMedianAvailableSpace minKnob targetKnob teams = minKnob) ∧
    (1 < (teams.filter (fun t => t.healthy)).length →
      ∃ sortedSpace : List ℚ,
        List.Perm sortedSpace ((teams.filter (fun t => t.healthy)).map
          (fun t => getMinAvailableSpaceRatio t.servers)) ∧
        sortedSpace.Sorted (fun a b => a ≤ b) ∧
        refreshMedianAvailableSpace minKnob targetKnob teams =
          max minKnob (min targetKnob
            (sortedSpace.getD (sortedSpace.length / 2) 0))) := by
  have hlen : ((teams.filter (fun t => t.healthy)).map
      (fun t => getMinAvailableSpaceRatio t.servers)).length =
      (teams.filter (fun t => t.healthy)).length := List.length_map _ _
  by_cases hbig : 1 < ((teams.filter (fun t => t.healthy)).map
      (fun t => getMinAvailableSpaceRatio t.servers)).length
  · have hval : refreshMedianAvailableSpace minKnob targetKnob teams =
        max minKnob (min targetKnob
          ((((teams.filter (fun t => t.healthy)).map
              (fun t => getMinAvailableSpaceRatio t.servers)).insertionSort
            (fun a b => a ≤ b)).getD
            (((teams.filter (fun t => t.healthy)).map
              (fun t => getMinAvailableSpaceRatio t.servers)).length / 2) 0)) := by
      unfold refreshMedianAvailableSpace
      rw [if_pos hbig]
    refine ⟨⟨?_, ?_⟩, ?_, ?_⟩
    · rw [hval]
      exact le_max_left _ _
    · rw [hval]
      exact max_le hK (min_le_left _ _)
    · intro h
      omega
    · intro h
      refine ⟨((teams.filter (fun t => t.healthy)).map
          (fun t => getMinAvailableSpaceRatio t.servers)).insertionSort
          (fun a b => a ≤ b),
        List.perm_insertionSort _ _, List.sorted_insertionSort _ _, ?_⟩
      rw [hval, (List.perm_insertionSort (fun a b => a ≤ b)
        ((teams.filter (fun t => t.healthy)).map
          (fun t => getMinAvailableSpaceRatio t.servers))).length_eq]
  · have hval : refreshMedianAvailableSpace minKnob targetKnob teams = minKnob := by
      unfold refreshMedianAvailableSpace
      rw [if_neg hbig]
    refine ⟨⟨hval.ge, hval.le.trans hK⟩, fun _ => hval, fun h => ?_⟩
    omega

/-- Witness for C6 at a concrete collection: knob interval `[1/20, 3/10]` and
three healthy teams whose (empty-membership) ratios are all `1`. -/
theorem claimC6_witness :
    ((1 / 20 : ℚ) ≤ refreshMedianAvailableSpace (1 / 20) (3 / 10)
        [TeamForSpace.mk true [], TeamForSpace.mk true [], TeamForSpace.mk true []] ∧
      refreshMedianAvailableSpace (1 / 20) (3 / 10)
        [TeamForSpace.mk true [], TeamForSpace.mk true [], TeamForSpace.mk true []] ≤
        (3 / 10 : ℚ)) ∧
    ((([TeamForSpace.mk true [], TeamForSpace.mk true [], TeamForSpace.mk true []] :
        List TeamForSpace).filter (fun t => t.healthy)).length ≤ 1 →
      refreshMedianAvailableSpace (1 / 20) (3 / 10)
        [TeamForSpace.mk true [], TeamForSpace.mk true [], TeamForSpace.mk true []] =
        (1 / 20 : ℚ)) ∧
    (1 < (([TeamForSpace.mk true [], TeamForSpace.mk true [], TeamForSpace.mk true []] :
        List TeamForSpace).filter (fun t => t.healthy)).length →
      ∃ sortedSpace : List ℚ,
        List.Perm sortedSpace
          ((([TeamForSpace.mk true [], TeamForSpace.mk true [], TeamForSpace.mk true []] :
            List TeamForSpace).filter (fun t => t.healthy)).map
            (fun t => getMinAvailableSpaceRatio t.servers)) ∧
        sortedSpace.Sorted (fun a b => a ≤ b) ∧
        refreshMedianAvailableSpace (1 / 20) (3 / 10)
          [TeamForSpace.mk true [], TeamForSpace.mk true [], TeamForSpace.mk true []] =
          max (1 / 20) (min (3 / 10) (sortedSpace.getD (sortedSpace.length / 2) 0))) :=
  claimC6_medianAvailableSpace (1 / 20) (3 / 10)
    [TeamForSpace.mk true [], TeamForSpace.mk true [], TeamForSpace.mk true []]
    (by norm_num)

/-! ### The wantsTrueBest scan of getTeam (C7)

The `req.wantsTrueBest` branch of `DDTeamCollection::getTeam`
(lines 982-1009): scan every team once, starting from the rotating index
(`lowestUtilizationTeam` or `highestUtilizationTeam`, reset to 0 when out of
range), keep the healthy team with the best `getLoadBytes` among those that
pass the free-space floor and the `teamMustHaveShards` filter, and store the
winner's position back into the rotating index.  With the collection state
fixed (as claim C7 assumes), each team contributes four observables:
`isHealthy()`, `hasHealthyAvailableSpace(medianAvailableSpace)`,
`getLoadBytes(true, req.inflightPenalty)` and
`shardsAffectedByTeamFailure->hasShards(team)`; a team is its tuple of
observables. -/

/-- One team as the `wantsTrueBest` scan observes it under a fixed collection
state. -/
structure GetTeamTeam where
  healthy : Bool
  availOk : Bool
  loadBytes : Int
  hasShards : Bool
deriving DecidableEq, Repr

/-- The request fields the scan reads. -/
structure GetTeamRequest where
  preferLowerUtilization : Bool
  teamMustHaveShards : Bool
deriving DecidableEq, Repr

/-- The loop state: `bestLoadBytes`, `bestOption` (the selected team,
identified by its position) and `bestIndex`. -/
structure BestTeamScanState where
  bestLoadBytes : Int
  bestOption : Option Nat
  bestIndex : Nat
deriving DecidableEq, Repr

/-- One iteration of the scan loop (lines 990-1005) at `currentIndex`. -/
def bestTeamScanStep (req : GetTeamRequest) (teams : List GetTeamTeam)
    (st : BestTeamScanState) (currentIndex : Nat) : BestTeamScanState :=
  match teams[currentIndex]? with
  | none => st
  | some t =>
    if t.healthy && (!req.preferLowerUtilization || t.availOk) then
      if (!st.bestOption.isSome ||
          (req.preferLowerUtilization && decide (t.loadBytes < st.bestLoadBytes)) ||
          (!req.preferLowerUtilization && decide (st.bestLoadBytes < t.loadBytes))) &&
          (!req.teamMustHaveShards || t.hasShards) then
        { bestLoadBytes := t.loadBytes, bestOption := some currentIndex,
          bestIndex := currentIndex }
      else st
    else st

/-- The indices `(startIndex + i) % teams.size()` for `i = 0 .. size-1`. -/
def scanVisitOrder (n startIndex : Nat) : List Nat :=
  (List.range n).map (fun i => (startIndex + i) % n)

/-- The whole `wantsTrueBest` branch: normalize the rotating start index,
run the scan, and return the selected team (by position) together with the
new value of the rotating index (`startIndex = bestIndex`). -/
def wantsTrueBestScan (req : GetTeamRequest) (teams : List GetTeamTeam)
    (startIndex0 : Nat) : Option Nat × Nat :=
  let startIndex := if teams.length ≤ startIndex0 then 0 else startIndex0
  let final := (scanVisitOrder teams.length startIndex).foldl
    (bestTeamScanStep req teams)
    { bestLoadBytes := 0, bestOption := none, bestIndex := startIndex }
  (final.bestOption, final.bestIndex)

/-- A position the scan may select: occupied, healthy (and roomy when
utilization matters), and passing the shard filter. -/
def scanCandidate (req : GetTeamRequest) (teams : List GetTeamTeam) (j : Nat) : Prop :=
  ∃ t, teams[j]? = some t ∧
    (t.healthy && (!req.preferLowerUtilization || t.availOk)) = true ∧
    (!req.teamMustHaveShards || t.hasShards) = true

/-- The `loadBytes` observable at a position. -/
def scanLoad (teams : List GetTeamTeam) (j : Nat) : Int :=
  ((teams[j]?).map (fun t => t.loadBytes)).getD 0

/-- The strict-improvement order of the scan: smaller load wins under
`preferLowerUtilization`, larger load wins otherwise. -/
def scanImproves (req : GetTeamRequest) (l b : Int) : Prop :=
  if req.preferLowerUtilization = true then l < b else b < l

theorem scanImproves_irrefl (req : GetTeamRequest) (l : Int) :
    ¬ scanImproves req l l := by
  unfold scanImproves
  split <;> exact lt_irrefl _

theorem bestTeamScanStep_none_cand (req : GetTeamRequest) (teams : List GetTeamTeam)
    (st : BestTeamScanState) (j : Nat) (h0 : st.bestOption = none)
    (hc : scanCandidate req teams j) :
    bestTeamScanStep req teams st j =
      { bestLoadBytes := scanLoad teams j, bestOption := some j, bestIndex := j } := by
  rcases hc with ⟨t, ht, he, hs⟩
  unfold bestTeamScanStep scanLoad
  rw [ht]
  simp [he, hs, h0]

theorem scanLoad_eq (teams : List GetTeamTeam) (j : Nat) (t : GetTeamTeam)
    (ht : teams[j]? = some t) : scanLoad teams j = t.loadBytes := by
  unfold scanLoad
  rw [ht]
  rfl

theorem bestTeamScanStep_not_cand (req : GetTeamRequest) (teams : List GetTeamTeam)
    (st : BestTeamScanState) (j : Nat) (hc : ¬ scanCandidate req teams j) :
    bestTeamScanStep req teams st j = st := by
  unfold bestTeamScanStep
  split
  next => rfl
  next t ht =>
    by_cases he : (t.healthy && (!req.preferLowerUtilization || t.availOk)) = true
    · by_cases hs : (!req.teamMustHaveShards || t.hasShards) = true
      · exact absurd ⟨t, ht, he, hs⟩ hc
      · have hcond : ¬ ((!st.bestOption.isSome ||
            (req.preferLowerUtilization && decide (t.loadBytes < st.bestLoadBytes)) ||
            (!req.preferLowerUtilization && decide (st.bestLoadBytes < t.loadBytes))) &&
            (!req.teamMustHaveShards || t.hasShards)) = true := by
          rw [Bool.and_eq_true]
          exact fun h => hs h.2
        rw [if_pos he, if_neg hcond]
    · rw [if_neg he]

theorem bestTeamScanStep_improve (req : GetTeamRequest) (teams : List GetTeamTeam)
    (st : BestTeamScanState) (j : Nat) (hc : scanCandidate req teams j)
    (him : scanImproves req (scanLoad teams j) st.bestLoadBytes) :
    bestTeamScanStep req teams st j =
      { bestLoadBytes := scanLoad teams j, bestOption := some j, bestIndex := j } := by
  rcases hc with ⟨t, ht, he, hs⟩
  rw [scanLoad_eq teams j t ht] at him ⊢
  unfold scanImproves at him
  have hcond : ((!st.bestOption.isSome ||
      (req.preferLowerUtilization && decide (t.loadBytes < st.bestLoadBytes)) ||
      (!req.preferLowerUtilization && decide (st.bestLoadBytes < t.loadBytes))) &&
      (!req.teamMustHaveShards || t.hasShards)) = true := by
    rw [Bool.and_eq_true]
    refine ⟨?_, hs⟩
    cases hp : req.preferLowerUtilization with
    | true =>
      rw [hp] at him
      simp at him
      simp [him]
    | false =>
      rw [hp] at him
      simp at him
      simp [him]
  unfold bestTeamScanStep
  split
  next hnone =>
    rw [ht] at hnone
    cases hnone
  next t2 ht2 =>
    rw [ht] at ht2
    cases ht2
    rw [if_pos he, if_pos hcond]

theorem bestTeamScanStep_no_improve (req : GetTeamRequest) (teams : List GetTeamTeam)
    (st : BestTeamScanState) (j : Nat) (h0 : st.bestOption.isSome = true)
    (him : ¬ scanImproves req (scanLoad teams j) st.bestLoadBytes) :
    bestTeamScanStep req teams st j = st := by
  unfold bestTeamScanStep
  split
  next => rfl
  next t ht =>
    by_cases he : (t.healthy && (!req.preferLowerUtilization || t.availOk)) = true
    · rw [scanLoad_eq teams j t ht] at him
      unfold scanImproves at him
      have hcond : ¬ ((!st.bestOption.isSome ||
          (req.preferLowerUtilization && decide (t.loadBytes < st.bestLoadBytes)) ||
          (!req.preferLowerUtilization && decide (st.bestLoadBytes < t.loadBytes))) &&
          (!req.teamMustHaveShards || t.hasShards)) = true := by
        rw [Bool.and_eq_true]
        rintro ⟨h1, -⟩
        cases hp : req.preferLowerUtilization with
        | true =>
          rw [hp] at h1 him
          simp [h0] at h1
          simp at him
          omega
        | false =>
          rw [hp] at h1 him
          simp [h0] at h1
          simp at him
          omega
      rw [if_pos he, if_neg hcond]
    · rw [if_neg he]

/-- The scan invariant over the visited positions: either nothing was
selected and no visited position was a candidate, or the selected position
is a visited candidate whose load no visited candidate strictly improves. -/
def ScanInv (req : GetTeamRequest) (teams : List GetTeamTeam)
    (visited : List Nat) (st0 st : BestTeamScanState) : Prop :=
  (st = st0 ∧ ∀ j ∈ visited, ¬ scanCandidate req teams j) ∨
  (∃ b, scanCandidate req teams b ∧ st.bestOption = some b ∧
    st.bestLoadBytes = scanLoad teams b ∧ st.bestIndex = b ∧
    ∀ j ∈ visited, scanCandidate req teams j →
      ¬ scanImproves req (scanLoad teams j) (scanLoad teams b))

theorem ScanInv_step (req : GetTeamRequest) (teams : List GetTeamTeam)
    (visited : List Nat) (st0 st : BestTeamScanState) (j : Nat)
    (h0 : st0.bestOption = none)
    (hinv : ScanInv req teams visited st0 st) :
    ScanInv req teams (visited ++ [j]) st0 (bestTeamScanStep req teams st j) := by
  rcases hinv with ⟨hst, hnone⟩ | ⟨b, hcb, hbopt, hload, hidx, hopt⟩
  · by_cases hc : scanCandidate req teams j
    · rw [bestTeamScanStep_none_cand req teams st j (hst ▸ h0) hc]
      right
      refine ⟨j, hc, rfl, rfl, rfl, ?_⟩
      intro k hk hck
      rcases List.mem_append.mp hk with hk | hk
      · exact absurd hck (hnone k hk)
      · rcases List.mem_singleton.mp hk with rfl
        exact scanImproves_irrefl req _
    · left
      rw [bestTeamScanStep_not_cand req teams st j hc]
      refine ⟨hst, fun k hk => ?_⟩
      rcases List.mem_append.mp hk with hk | hk
      · exact hnone k hk
      · rcases List.mem_singleton.mp hk with rfl
        exact hc
  · by_cases hc : scanCandidate req teams j
    · by_cases him : scanImproves req (scanLoad teams j) st.bestLoadBytes
      · rw [bestTeamScanStep_improve req teams st j hc him]
        right
        refine ⟨j, hc, rfl, rfl, rfl, ?_⟩
        intro k hk hck
        rw [hload] at him
        rcases List.mem_append.mp hk with hk | hk
        · have h1 := hopt k hk hck
          unfold scanImproves at him h1 ⊢
          cases hp : req.preferLowerUtilization with
          | true => rw [hp] at him h1; simp at him h1 ⊢; omega
          | false => rw [hp] at him h1; simp at him h1 ⊢; omega
        · rcases List.mem_singleton.mp hk with rfl
          exact scanImproves_irrefl req _
      · right
        have hsome : st.bestOption.isSome = true := by rw [hbopt]; rfl
        rw [bestTeamScanStep_no_improve req teams st j hsome him]
        refine ⟨b, hcb, hbopt, hload, hidx, fun k hk hck => ?_⟩
        rcases List.mem_append.mp hk with hk | hk
        · exact hopt k hk hck
        · rcases List.mem_singleton.mp hk with rfl
          rw [hload] at him
          exact him
    · right
      rw [bestTeamScanStep_not_cand req teams st j hc]
      refine ⟨b, hcb, hbopt, hload, hidx, fun k hk hck => ?_⟩
      rcases List.mem_append.mp hk with hk | hk
      · exact hopt k hk hck
      · rcases List.mem_singleton.mp hk with rfl
        exact absurd hck hc

theorem ScanInv_foldl (req : GetTeamRequest) (teams : List GetTeamTeam)
    (l : List Nat) (visited : List Nat) (st0 st : BestTeamScanState)
    (h0 : st0.bestOption = none)
    (hinv : ScanInv req teams visited st0 st) :
    ScanInv req teams (visited ++ l)
      st0 (l.foldl (bestTeamScanStep req teams) st) := by
  induction l generalizing visited st with
  | nil => simpa using hinv
  | cons j rest ih =>
    rw [List.foldl_cons]
    have h2 := ih (visited ++ [j]) (bestTeamScanStep req teams st j)
      (ScanInv_step req teams visited st0 st j h0 hinv)
    simpa [List.append_assoc] using h2

theorem bestTeamScan_foldl_frozen (req : GetTeamRequest) (teams : List GetTeamTeam)
    (l : List Nat) (b : Nat)
    (hopt : ∀ j ∈ l, scanCandidate req teams j →
      ¬ scanImproves req (scanLoad teams j) (scanLoad teams b)) :
    l.foldl (bestTeamScanStep req teams)
      { bestLoadBytes := scanLoad teams b, bestOption := some b, bestIndex := b } =
      { bestLoadBytes := scanLoad teams b, bestOption := some b, bestIndex := b } := by
  induction l with
  | nil => rfl
  | cons j rest ih =>
    rw [List.foldl_cons]
    have hstep : bestTeamScanStep req teams
        { bestLoadBytes := scanLoad teams b, bestOption := some b, bestIndex := b } j =
        { bestLoadBytes := scanLoad teams b, bestOption := some b, bestIndex := b } := by
      by_cases hc : scanCandidate req teams j
      · exact bestTeamScanStep_no_improve req teams _ j rfl
          (hopt j (List.mem_cons_self j rest) hc)
      · exact bestTeamScanStep_not_cand req teams _ j hc
    rw [hstep]
    exact ih (fun k hk hck => hopt k (List.mem_cons_of_mem j hk) hck)

theorem mem_scanVisitOrder (n start j : Nat) (hn : 0 < n) (hj : j < n) :
    j ∈ scanVisitOrder n start := by
  unfold scanVisitOrder
  refine List.mem_map.mpr ⟨(j + n - start % n) % n,
    List.mem_range.mpr (Nat.mod_lt _ hn), ?_⟩
  have hs : start % n < n := Nat.mod_lt _ hn
  have hsle : start % n ≤ start := Nat.mod_le _ _
  have h1 : (start + (j + n - start % n) % n) % n =
      (start + (j + n - start % n)) % n := by
    rw [Nat.add_mod, Nat.mod_mod, ← Nat.add_mod]
  have h2 : start + (j + n - start % n) = (start - start % n) + (j + n) := by
    omega
  have h3 : (start - start % n) % n = 0 :=
    Nat.dvd_iff_mod_eq_zero.mp (Nat.dvd_sub_mod start)
  rw [h1, h2, Nat.add_mod, h3, Nat.zero_add, Nat.add_mod_right, Nat.mod_mod,
    Nat.mod_eq_of_lt hj]

theorem scanVisitOrder_cons (n b : Nat) (hn : 0 < n) (hb : b < n) :
    scanVisitOrder n b =
      b :: (List.range (n - 1)).map (fun i => (b + (i + 1)) % n) := by
  obtain ⟨m, rfl⟩ : ∃ m, n = m + 1 := ⟨n - 1, by omega⟩
  unfold scanVisitOrder
  rw [List.range_succ_eq_map, List.map_cons, List.map_map]
  congr 1
  simpa using Nat.mod_eq_of_lt hb

theorem claimC7_wantsTrueBest_helper (req : GetTeamRequest)
    (teams : List GetTeamTeam) (s : Nat) (hs : s < teams.length) :
    wantsTrueBestScan req teams s =
      (((scanVisitOrder teams.length s).foldl (bestTeamScanStep req teams)
        { bestLoadBytes := 0, bestOption := none, bestIndex := s }).bestOption,
       ((scanVisitOrder teams.length s).foldl (bestTeamScanStep req teams)
        { bestLoadBytes := 0, bestOption := none, bestIndex := s }).bestIndex) := by
  unfold wantsTrueBestScan
  rw [if_neg (not_le.mpr hs)]

/-- **C7.** For every request with `wantsTrueBest = true`: two consecutive
`getTeam` evaluations with identical request fields and identical collection
state select the same team (and leave the rotating index unchanged the
second time), even though the scan's rotating start index is updated to the
returned team's position between the calls. -/
theorem claimC7_wantsTrueBest (req : GetTeamRequest) (teams : List GetTeamTeam)
    (startIndex0 : Nat) :
    wantsTrueBestScan req teams (wantsTrueBestScan req teams startIndex0).2 =
      wantsTrueBestScan req teams startIndex0 := by
  by_cases hn : teams.length = 0
  · unfold wantsTrueBestScan scanVisitOrder
    rw [hn]
    simp
  · have hpos : 0 < teams.length := Nat.pos_of_ne_zero hn
    set start := if teams.length ≤ startIndex0 then 0 else startIndex0 with hsdef
    have hslt : start < teams.length := by
      rw [hsdef]
      split <;> omega
    have hfirst : wantsTrueBestScan req teams startIndex0 =
        (((scanVisitOrder teams.length start).foldl (bestTeamScanStep req teams)
          { bestLoadBytes := 0, bestOption := none, bestIndex := start }).bestOption,
         ((scanVisitOrder teams.length start).foldl (bestTeamScanStep req teams)
          { bestLoadBytes := 0, bestOption := none, bestIndex := start }).bestIndex) := by
      rw [hsdef]
      rfl
    have hinv := ScanInv_foldl req teams (scanVisitOrder teams.length start) []
      { bestLoadBytes := 0, bestOption := none, bestIndex := start }
      { bestLoadBytes := 0, bestOption := none, bestIndex := start }
      rfl (Or.inl ⟨rfl, by simp⟩)
    rw [List.nil_append] at hinv
    rcases hinv with ⟨hfin, hnone⟩ | ⟨b, hcb, hbopt, hload, hidx, hopt⟩
    · rw [hfirst, hfin]
      show wantsTrueBestScan req teams start = (none, start)
      rw [claimC7_wantsTrueBest_helper req teams start hslt, hfin]
    · have hblt : b < teams.length := by
        rcases hcb with ⟨t, ht, -, -⟩
        rcases List.getElem?_eq_some.mp ht with ⟨hlt, -⟩
        exact hlt
      rw [hfirst, hbopt, hidx]
      show wantsTrueBestScan req teams b = (some b, b)
      rw [claimC7_wantsTrueBest_helper req teams b hblt,
        scanVisitOrder_cons teams.length b hpos hblt, List.foldl_cons,
        bestTeamScanStep_none_cand req teams _ b rfl hcb,
        bestTeamScan_foldl_frozen req teams _ b ?_]
      intro j hj hcj
      rcases List.mem_map.mp hj with ⟨i, -, rfl⟩
      exact hopt _ (mem_scanVisitOrder teams.length start _ hpos
        (Nat.mod_lt _ hpos)) hcj

end DD
